import Mathlib

/-!
# Verification of the `visa` package (`visa.go`)

A shallow embedding of the VISA resource-identifier parser of the
`grvstick/visa` repository, together with theorems settling the claims
about it.

The embedding mirrors `visa.go`:
* `matchGrammar` embeds the anchored regular expression of
  `parseVisaResource` (lines 44–49), using Go's leftmost-first submatch
  semantics.  Each character class of the pattern excludes `':'` and is
  matched greedily, so every capture is a maximal run and the only
  backtracking point is the optional serial-number group, which is
  tried present-first.
* `goParseUint` embeds `strconv.ParseUint(s, base, bitSize)` for the
  base/bitSize combinations the program uses (base 0 with automatic
  `0b`/`0o`/`0x`/leading-`0` prefix detection, underscore separators,
  and the `2^bitSize - 1` range check).
* `goToUpperChar` embeds `strings.ToUpper` as far as the program
  observes it: the program only compares uppercased captures against
  the ASCII literals "USB" and "INSTR", and the only code points whose
  Unicode simple uppercase mapping lands in those letters are the ASCII
  lowercase letters together with U+0131 (ı → I) and U+017F (ſ → S).
* `parseVisaResource` embeds `parseVisaResource` (lines 33–105),
  returning the partially-filled record together with an optional error
  exactly as the Go function returns `(visa, err)`.
* `OpenResource` embeds `OpenResource` (lines 157–171) parameterised
  over the two external collaborators (`usbtmc.NewDevice` and
  `usbtmc.NewUsbTmc`).
-/

namespace Visa

/-! ## Character classes of the regular expression -/

/-- Go regexp `\s`: the ASCII whitespace class `[\t\n\f\r ]`. -/
def isGoSpace (c : Char) : Bool :=
  c = '\t' ∨ c = '\n' ∨ c = Char.ofNat 12 ∨ c = Char.ofNat 13 ∨ c = ' '

/-- Go regexp `[A-Za-z]`. -/
def isGoLetter (c : Char) : Bool :=
  ('A' ≤ c ∧ c ≤ 'Z') ∨ ('a' ≤ c ∧ c ≤ 'z')

/-- Go regexp `\d`: the ASCII digit class `[0-9]`. -/
def isDigitChar (c : Char) : Bool :=
  '0' ≤ c ∧ c ≤ '9'

/-- Go regexp `[^\s:]`: any character that is neither whitespace nor a colon. -/
def isTok (c : Char) : Bool :=
  ¬ isGoSpace c ∧ c ≠ ':'

/-! ## `strconv` helpers -/

/-- Go `strconv`'s `lower(c) = c | ('x' - 'X')`. -/
def goLower (c : Char) : Char :=
  Char.ofNat (c.toNat ||| 0x20)

/-- `strings.ToUpper`, restricted to what the program observes.  The
parser only compares uppercased strings against `"USB"` and `"INSTR"`;
besides the ASCII lowercase letters, the only code points whose Unicode
simple uppercase mapping is one of `U,S,B,I,N,S,T,R` are U+0131 and
U+017F, so this map agrees with Go's on every comparison the program
performs. -/
def goToUpperChar (c : Char) : Char :=
  if 'a' ≤ c ∧ c ≤ 'z' then Char.ofNat (c.toNat - 32)
  else if c.toNat = 0x131 then 'I'
  else if c.toNat = 0x17F then 'S'
  else c

/-- `strings.ToUpper` on a character list. -/
def goToUpperL (l : List Char) : List Char :=
  l.map goToUpperChar

/-- The digit value of one character in `ParseUint`'s digit loop:
`'0'..'9'` and (after `lower`) `'a'..'z'`, or a syntax error. -/
def charDigit (c : Char) : Option Nat :=
  if '0' ≤ c ∧ c ≤ '9' then some (c.toNat - '0'.toNat)
  else if 'a' ≤ goLower c ∧ goLower c ≤ 'z' then some ((goLower c).toNat - 'a'.toNat + 10)
  else none

/-- The digit-accumulation loop of `strconv.ParseUint`: underscores are
skipped when the caller passed base 0, a digit at or above the base is a
syntax error, and exceeding `maxVal` is a range error (both errors
collapse to `none`, as the program only tests `err != nil`). -/
def parseUintLoop (base maxVal : Nat) (base0 : Bool) : List Char → Nat → Option Nat
  | [], n => some n
  | c :: cs, n =>
    if c = '_' ∧ base0 = true then parseUintLoop base maxVal base0 cs n
    else
      match charDigit c with
      | none => none
      | some d =>
        if base ≤ d then none
        else if maxVal < n * base + d then none
        else parseUintLoop base maxVal base0 cs (n * base + d)

/-- Go's `underscoreOK` loop: `saw` is `'^'` at the start, `'0'` after a
digit (or the base prefix), `'_'` after an underscore and `'!'`
otherwise; an underscore must sit between digits. -/
def underscoreOKLoop (hex : Bool) : List Char → Char → Bool
  | [], saw => saw ≠ '_'
  | c :: cs, saw =>
    if ('0' ≤ c ∧ c ≤ '9') ∨ (hex ∧ 'a' ≤ goLower c ∧ goLower c ≤ 'f') then
      underscoreOKLoop hex cs '0'
    else if c = '_' then
      if saw = '0' then underscoreOKLoop hex cs '_' else false
    else if saw = '_' then false
    else underscoreOKLoop hex cs '!'

/-- Go `strconv.underscoreOK`: underscores may only be digit separators. -/
def underscoreOK (s : List Char) : Bool :=
  let s1 := match s with
    | c :: rest => if c = '-' ∨ c = '+' then rest else c :: rest
    | [] => []
  match s1 with
  | c0 :: c1 :: rest =>
    if c0 = '0' ∧ (goLower c1 = 'b' ∨ goLower c1 = 'o' ∨ goLower c1 = 'x') then
      underscoreOKLoop (goLower c1 = 'x') rest '0'
    else underscoreOKLoop false s1 '^'
  | _ => underscoreOKLoop false s1 '^'

/-- `ParseUint`'s base-0 prefix detection: `0b`/`0o`/`0x` (requiring at
least one further character) select binary/octal/hex, a bare leading
`0` selects octal, anything else decimal; returns the detected base and
the remaining text. -/
def detectBase (s0 : List Char) : Nat × List Char :=
  match s0 with
  | c0 :: rest =>
    if c0 = '0' then
      match rest with
      | c1 :: rest2 =>
        if goLower c1 = 'b' ∧ rest2 ≠ [] then (2, rest2)
        else if goLower c1 = 'o' ∧ rest2 ≠ [] then (8, rest2)
        else if goLower c1 = 'x' ∧ rest2 ≠ [] then (16, rest2)
        else (8, c1 :: rest2)
      | [] => (8, [])
    else (10, s0)
  | [] => (10, [])

/-- `ParseUint`'s final underscore validation: when the caller passed
base 0 and the digit text contained an underscore, the original text
must satisfy `underscoreOK`. -/
def applyUnderscoreCheck (base0 : Bool) (stripped s0 : List Char) (r : Option Nat) :
    Option Nat :=
  match r with
  | none => none
  | some n =>
    if base0 ∧ '_' ∈ stripped then
      if underscoreOK s0 then some n else none
    else some n

/-- Go `strconv.ParseUint(s, base, bitSize)`.  With base 0 the base is
detected from a `0b`/`0o`/`0x` prefix (requiring at least one digit
after it), a bare leading `0` selecting octal; values above
`2^bitSize - 1` are range errors; with base 0, underscores are allowed
as digit separators subject to `underscoreOK`.  Errors are collapsed to
`none` because the program only tests `err != nil`. -/
def goParseUint (s0 : List Char) (base bitSize : Nat) : Option Nat :=
  if s0 = [] then none
  else
    let base0 : Bool := base = 0
    let p : Nat × List Char := if base ≠ 0 then (base, s0) else detectBase s0
    let maxVal := 2 ^ bitSize - 1
    applyUnderscoreCheck base0 p.2 s0 (parseUintLoop p.1 maxVal base0 p.2 0)

/-! ## The anchored regular expression of `parseVisaResource`

```
^(?P<interfaceType>[A-Za-z]+)(?P<boardIndex>\d*)::
 (?P<manufacturerID>[^\s:]+)::
 (?P<modelCode>[^\s:]+)
 (::(?P<serialNumber>[^\s:]+))?
 (::(?P<interfaceIndex>\d*))
 ::(?P<resourceClass>[^\s:]+)$
```

Every class excludes `':'` and every class run is immediately followed
by a literal `"::"` (or the end anchor), so each greedy run is exactly
the maximal run and cannot be shortened by backtracking; the only
choice point is the optional serial-number group, which leftmost-first
matching tries present-first. -/

/-- The capture map of the regular expression (empty strings for absent
captures, as `FindStringSubmatch` reports them). -/
structure Captures where
  interfaceType : List Char
  boardIndex : List Char
  manufacturerID : List Char
  modelCode : List Char
  serialNumber : List Char
  interfaceIndex : List Char
  resourceClass : List Char
deriving Repr, DecidableEq

/-- The empty capture map: what `matchMap` holds when
`FindStringSubmatch` returns no match. -/
def emptyCaptures : Captures :=
  ⟨[], [], [], [], [], [], []⟩

/-- The tail `(::(?P<interfaceIndex>\d*))::(?P<resourceClass>[^\s:]+)$`
of the pattern; returns the two captures. -/
def matchTail (r : List Char) : Option (List Char × List Char) :=
  match r with
  | ':' :: ':' :: r1 =>
    let d := r1.takeWhile isDigitChar
    match r1.dropWhile isDigitChar with
    | ':' :: ':' :: r3 =>
      let cls := r3.takeWhile isTok
      if cls ≠ [] ∧ r3.dropWhile isTok = [] then some (d, cls) else none
    | _ => none
  | _ => none

/-- The optional group `(::(?P<serialNumber>[^\s:]+))?` followed by
`matchTail`: leftmost-first matching tries the group present first and
falls back to absent (empty capture). -/
def matchSerialTail (r : List Char) : Option (List Char × List Char × List Char) :=
  match r with
  | ':' :: ':' :: r1 =>
    let s := r1.takeWhile isTok
    if s ≠ [] then
      match matchTail (r1.dropWhile isTok) with
      | some (d, cls) => some (s, d, cls)
      | none => (matchTail r).map fun p => ([], p.1, p.2)
    else (matchTail r).map fun p => ([], p.1, p.2)
  | _ => (matchTail r).map fun p => ([], p.1, p.2)

/-- The full anchored pattern: `re.FindStringSubmatch` as a capture
map, `none` when the text does not match. -/
def matchGrammar (l : List Char) : Option Captures :=
  let it := l.takeWhile isGoLetter
  if it = [] then none
  else
    let r1 := l.dropWhile isGoLetter
    let bi := r1.takeWhile isDigitChar
    match r1.dropWhile isDigitChar with
    | ':' :: ':' :: r3 =>
      let m := r3.takeWhile isTok
      if m = [] then none
      else
        match r3.dropWhile isTok with
        | ':' :: ':' :: r5 =>
          let c := r5.takeWhile isTok
          if c = [] then none
          else
            match matchSerialTail (r5.dropWhile isTok) with
            | some (s, d, cls) => some ⟨it, bi, m, c, s, d, cls⟩
            | none => none
        | _ => none
    | _ => none

/-! ## The data model and the parser -/

/-- `VisaResource` (visa.go lines 21–30). -/
structure VisaResource where
  resourceString : String
  interfaceType : String
  boardIndex : Int
  manufacturerID : Int
  modelCode : Int
  serialNumber : String
  interfaceIndex : Int
  resourceClass : String
deriving Repr, DecidableEq

/-- The errors `parseVisaResource` can return, in source order:
`"visa: interface type was not usb"`, `"visa: boardIndex error"`,
`"visa: manufacturerID error"`, `"visa: modelCode error"`,
`"visa: interfaceIndex error"`, `"visa: resource class was not instr"`. -/
inductive VisaError where
  | interfaceTypeNotUSB
  | boardIndexError
  | manufacturerIDError
  | modelCodeError
  | interfaceIndexError
  | resourceClassNotINSTR
deriving Repr, DecidableEq

/-- One numeric-field block of `parseVisaResource`:
`if matchMap[f] != "" { v, err := strconv.ParseUint(matchMap[f], base, bits); if err != nil { fail }; field = int(v) }`.
Returns the (possibly unchanged) field value, or `none` for the error
return. -/
def parseNumField (tok : List Char) (base bits : Nat) (old : Int) : Option Int :=
  if tok = [] then some old
  else (goParseUint tok base bits).map Int.ofNat

/-- `parseVisaResource` (visa.go lines 33–105).  Like the Go function,
it returns the partially-updated record alongside the error. -/
def parseVisaResource (resourceString : String) : VisaResource × Option VisaError :=
  let visa0 : VisaResource :=
    { resourceString := resourceString, interfaceType := "", boardIndex := -1,
      manufacturerID := -1, modelCode := -1, serialNumber := "",
      interfaceIndex := -1, resourceClass := "" }
  let mm := (matchGrammar resourceString.data).getD emptyCaptures
  if goToUpperL mm.interfaceType ≠ "USB".data then
    (visa0, some VisaError.interfaceTypeNotUSB)
  else
    let visa1 := { visa0 with interfaceType := "USB" }
    match parseNumField mm.boardIndex 0 16 visa1.boardIndex with
    | none => (visa1, some VisaError.boardIndexError)
    | some bi =>
      let visa2 := { visa1 with boardIndex := bi }
      match parseNumField mm.manufacturerID 0 16 visa2.manufacturerID with
      | none => (visa2, some VisaError.manufacturerIDError)
      | some mid =>
        let visa3 := { visa2 with manufacturerID := mid }
        match parseNumField mm.modelCode 0 16 visa3.modelCode with
        | none => (visa3, some VisaError.modelCodeError)
        | some mc =>
          let visa4 := { visa3 with modelCode := mc }
          let visa5 := { visa4 with serialNumber := String.mk mm.serialNumber }
          match parseNumField mm.interfaceIndex 0 10 visa5.interfaceIndex with
          | none => (visa5, some VisaError.interfaceIndexError)
          | some ii =>
            let visa6 := { visa5 with interfaceIndex := ii }
            if goToUpperL mm.resourceClass ≠ "INSTR".data then
              (visa6, some VisaError.resourceClassNotINSTR)
            else ({ visa6 with resourceClass := "INSTR" }, none)

/-- `OpenResource` (visa.go lines 157–171), parameterised over the two
collaborators `usbtmc.NewDevice` and `usbtmc.NewUsbTmc`.  A parse error
is propagated (`Except.error`, i.e. a `nil` handle plus the error)
without consulting either collaborator. -/
def OpenResource {Dev Handle DevErr : Type}
    (newDevice : Int → Int → String → Except DevErr Dev)
    (newUsbTmc : Dev → Nat → Handle)
    (addr : String) (termchar : Nat) : Except (VisaError ⊕ DevErr) Handle :=
  match parseVisaResource addr with
  | (_, some e) => Except.error (Sum.inl e)
  | (v, none) =>
    match newDevice v.manufacturerID v.modelCode v.serialNumber with
    | Except.error e => Except.error (Sum.inr e)
    | Except.ok dev => Except.ok (newUsbTmc dev termchar)

/-! ## Identifier texts assembled from their segments

These helpers name the textual shape
`<interfaceType><boardIndex>::<manufacturerID>::<modelCode>(::<serialNumber>)?::<interfaceIndex>::<resourceClass>`
so that theorems can quantify over identifiers of that shape. -/

/-- `::<interfaceIndex>::<resourceClass>`. -/
def tailChars (d cls : List Char) : List Char :=
  ':' :: ':' :: (d ++ ':' :: ':' :: cls)

/-- The optional `::<serialNumber>` segment in front of a tail. -/
def serialTailChars : Option (List Char) → List Char → List Char
  | none, t => t
  | some s, t => ':' :: ':' :: (s ++ t)

/-- The full identifier text from its segments. -/
def composeChars (it bi m c : List Char) (s? : Option (List Char)) (d cls : List Char) :
    List Char :=
  it ++ (bi ++ ':' :: ':' :: (m ++ ':' :: ':' :: (c ++ serialTailChars s? (tailChars d cls))))

/-- The full identifier text from its segments, as a string. -/
def composeIdent (it bi m c : List Char) (s? : Option (List Char)) (d cls : List Char) :
    String :=
  String.mk (composeChars it bi m c s? d cls)

/-! ## Rendering, modelled from the spec

Modelled from the spec: the repository has no renderer for a parsed
`VisaResource` — only the Device Enumerator's format string
`"USB0::0x%s::0x%s::%s::%d::INSTR"` (visa.go line 147, with the vendor
and product printed as four lowercase hex digits) — so the rendering
direction of §6/§8 ("re-rendering the parsed fields reproduces the
normalized identifier") is modelled here: each field is written back in
the grammar's textual form, the interface type and resource class as
the normalized literals `USB`/`INSTR`, the manufacturer ID and model
code in the enumerator's `0x` + four-lowercase-hex-digit form, the
indices in decimal, and a sentinel `-1` index or empty serial number
rendered as the absent segment. -/

/-- The character of a digit value below 16 (lowercase, as Go's `%x`). -/
def digitChar (n : Nat) : Char :=
  if n < 10 then Char.ofNat ('0'.toNat + n) else Char.ofNat ('a'.toNat + (n - 10))

set_option linter.unusedVariables false in
/-- The digits of `n` in base `b2 + 2` (most significant first, empty
for zero). -/
def toDigitsAux (b2 : Nat) (n : Nat) : List Char :=
  if h : n = 0 then []
  else toDigitsAux b2 (n / (b2 + 2)) ++ [digitChar (n % (b2 + 2))]
decreasing_by exact Nat.div_lt_self (Nat.pos_of_ne_zero h) (by omega)

/-- The decimal rendering of `n` (Go's `%d` for non-negative values). -/
def natToDec (n : Nat) : List Char :=
  if n = 0 then ['0'] else toDigitsAux 8 n

/-- The lowercase hex digits of `n` (empty for zero). -/
def natToHex (n : Nat) : List Char :=
  toDigitsAux 14 n

/-- Go's `%04x`: lowercase hex padded with zeros to four digits. -/
def hex4 (n : Nat) : List Char :=
  List.replicate (4 - (natToHex n).length) '0' ++ natToHex n

/-- A canonical hex token as the Device Enumerator writes one:
`0x` followed by `%04x`. -/
def hexTok (n : Nat) : List Char :=
  '0' :: 'x' :: hex4 n

/-- Modelled from the spec (see the section comment): the parsed fields
rendered back in the grammar's textual form, normalized. -/
def renderResource (v : VisaResource) : String :=
  composeIdent "USB".data
    (if v.boardIndex < 0 then [] else natToDec v.boardIndex.toNat)
    (hexTok v.manufacturerID.toNat)
    (hexTok v.modelCode.toNat)
    (if v.serialNumber = "" then none else some v.serialNumber.data)
    (if v.interfaceIndex < 0 then [] else natToDec v.interfaceIndex.toNat)
    "INSTR".data

/-! ## Character-class lemmas -/

theorem isTok_of_isDigitChar {a : Char} (h : isDigitChar a = true) : isTok a = true := by
  simp only [isDigitChar, decide_eq_true_eq] at h
  obtain ⟨h1, h2⟩ := h
  simp only [isTok, Bool.decide_and, Bool.and_eq_true, decide_eq_true_eq]
  refine ⟨?_, ?_⟩
  · intro hsp
    simp only [isGoSpace, decide_eq_true_eq] at hsp
    rcases hsp with rfl | rfl | rfl | rfl | rfl <;> exact absurd h1 (by decide)
  · rintro rfl; exact absurd h2 (by decide)

theorem isGoLetter_eq_false_of_isDigitChar {a : Char} (h : isDigitChar a = true) :
    isGoLetter a = false := by
  simp only [isDigitChar, decide_eq_true_eq] at h
  simp only [isGoLetter, decide_eq_false_iff_not]
  rintro (⟨h1, -⟩ | ⟨h1, -⟩) <;> exact absurd (le_trans h1 h.2) (by decide)

/-! ## Splitting maximal runs around appends -/

/-- A run of `p`-characters followed by a non-`p` (or empty) remainder
is split exactly there by `takeWhile`/`dropWhile`. -/
theorem span_append_eq (p : Char → Bool) (l r : List Char)
    (hl : ∀ a ∈ l, p a = true) (hr : ∀ b, r.head? = some b → p b = false) :
    (l ++ r).takeWhile p = l ∧ (l ++ r).dropWhile p = r := by
  induction l with
  | nil =>
    simp only [List.nil_append]
    cases r with
    | nil => simp
    | cons b rs =>
      have hb := hr b rfl
      simp [List.takeWhile_cons, List.dropWhile_cons, hb]
  | cons a l ih =>
    have ha := hl a (by simp)
    have ih' := ih fun x hx => hl x (List.mem_cons_of_mem _ hx)
    simp [List.takeWhile_cons, List.dropWhile_cons, ha, ih'.1, ih'.2]

/-! ## The grammar on composed identifiers -/

theorem matchTail_tailChars (d cls : List Char)
    (hd : ∀ a ∈ d, isDigitChar a = true)
    (hcls : cls ≠ []) (hclsT : ∀ a ∈ cls, isTok a = true) :
    matchTail (tailChars d cls) = some (d, cls) := by
  have hsp := span_append_eq isDigitChar d (':' :: ':' :: cls) hd
    (by intro b hb; simp only [List.head?_cons, Option.some.injEq] at hb; subst hb; decide)
  have hsp2 := span_append_eq isTok cls [] hclsT (by intro b hb; simp at hb)
  simp only [List.append_nil] at hsp2
  simp [matchTail, tailChars, hsp.1, hsp.2, hsp2.1, hsp2.2, hcls]

/-- Inside the serial-present attempt on a serial-absent text, the tail
matcher is applied to `"::" ++ cls` and fails: the resource-class token
contains no colon to introduce a further segment. -/
theorem matchTail_colon_colon_toks (cls : List Char)
    (hclsT : ∀ a ∈ cls, isTok a = true) :
    matchTail (':' :: ':' :: cls) = none := by
  unfold matchTail
  cases hdrop : cls.dropWhile isDigitChar with
  | nil => simp [hdrop]
  | cons b rest =>
    have hb : b ∈ cls := (List.dropWhile_sublist ..).subset (hdrop ▸ List.mem_cons_self b rest)
    have hbT := hclsT b hb
    simp only [isTok, Bool.decide_and, Bool.and_eq_true, decide_eq_true_eq] at hbT
    simp only [hdrop]
    split
    · rename_i heq
      injection heq with h1 h2
      exact absurd h1 hbT.2
    · rfl

theorem matchSerialTail_some (s d cls : List Char)
    (hs : s ≠ []) (hsT : ∀ a ∈ s, isTok a = true)
    (hd : ∀ a ∈ d, isDigitChar a = true)
    (hcls : cls ≠ []) (hclsT : ∀ a ∈ cls, isTok a = true) :
    matchSerialTail (':' :: ':' :: (s ++ tailChars d cls)) = some (s, d, cls) := by
  have hsp := span_append_eq isTok s (tailChars d cls) hsT
    (by intro b hb; simp only [tailChars, List.head?_cons, Option.some.injEq] at hb
        subst hb; decide)
  simp [matchSerialTail, hsp.1, hsp.2, hs, matchTail_tailChars d cls hd hcls hclsT]

theorem matchSerialTail_none (d cls : List Char)
    (hd : ∀ a ∈ d, isDigitChar a = true)
    (hcls : cls ≠ []) (hclsT : ∀ a ∈ cls, isTok a = true) :
    matchSerialTail (tailChars d cls) = some ([], d, cls) := by
  have htail := matchTail_tailChars d cls hd hcls hclsT
  cases hdnil : d with
  | nil =>
    have hsp : (':' :: ':' :: cls).takeWhile isTok = [] := by
      simp [List.takeWhile_cons, isTok, isGoSpace]
    subst hdnil
    simp only [matchSerialTail, tailChars, List.nil_append] at htail ⊢
    simp [hsp, htail]
  | cons b bs =>
    subst hdnil
    have hsp := span_append_eq isTok (b :: bs) (':' :: ':' :: cls)
      (fun a ha => isTok_of_isDigitChar (hd a ha))
      (by intro x hx; simp only [List.head?_cons, Option.some.injEq] at hx; subst hx; decide)
    have hnone := matchTail_colon_colon_toks cls hclsT
    simp only [List.cons_append] at hsp
    simp only [tailChars, List.cons_append] at htail ⊢
    simp [matchSerialTail, hsp.1, hsp.2, hnone, htail]

/-- The anchored pattern on a text of the identifier shape: every
capture is the corresponding segment. -/
theorem matchGrammar_compose (it bi m c : List Char) (s? : Option (List Char))
    (d cls : List Char)
    (hit : it ≠ []) (hitL : ∀ a ∈ it, isGoLetter a = true)
    (hbi : ∀ a ∈ bi, isDigitChar a = true)
    (hm : m ≠ []) (hmT : ∀ a ∈ m, isTok a = true)
    (hc : c ≠ []) (hcT : ∀ a ∈ c, isTok a = true)
    (hs : ∀ s ∈ s?, s ≠ [] ∧ ∀ a ∈ s, isTok a = true)
    (hd : ∀ a ∈ d, isDigitChar a = true)
    (hcls : cls ≠ []) (hclsT : ∀ a ∈ cls, isTok a = true) :
    matchGrammar (composeChars it bi m c s? d cls) =
      some ⟨it, bi, m, c, s?.getD [], d, cls⟩ := by
  have hsp1 := span_append_eq isGoLetter it
      (bi ++ ':' :: ':' :: (m ++ ':' :: ':' :: (c ++ serialTailChars s? (tailChars d cls))))
      hitL ?hb1
  case hb1 =>
    intro b hb
    cases bi with
    | nil => simp only [List.nil_append, List.head?_cons, Option.some.injEq] at hb
             subst hb; decide
    | cons x xs =>
      simp only [List.cons_append, List.head?_cons, Option.some.injEq] at hb
      subst hb
      exact isGoLetter_eq_false_of_isDigitChar (hbi x (by simp))
  have hsp2 := span_append_eq isDigitChar bi
      (':' :: ':' :: (m ++ ':' :: ':' :: (c ++ serialTailChars s? (tailChars d cls))))
      hbi (by intro b hb; simp only [List.head?_cons, Option.some.injEq] at hb
              subst hb; decide)
  have hsp3 := span_append_eq isTok m
      (':' :: ':' :: (c ++ serialTailChars s? (tailChars d cls)))
      hmT (by intro b hb; simp only [List.head?_cons, Option.some.injEq] at hb
              subst hb; decide)
  have hsp4 := span_append_eq isTok c (serialTailChars s? (tailChars d cls))
      hcT ?hb4
  case hb4 =>
    intro b hb
    cases s? with
    | none => simp only [serialTailChars, tailChars, List.head?_cons, Option.some.injEq] at hb
              subst hb; decide
    | some s => simp only [serialTailChars, List.head?_cons, Option.some.injEq] at hb
                subst hb; decide
  have hser : matchSerialTail (serialTailChars s? (tailChars d cls)) =
      some (s?.getD [], d, cls) := by
    cases s? with
    | none => simpa [serialTailChars] using matchSerialTail_none d cls hd hcls hclsT
    | some s =>
      obtain ⟨hsne, hsT⟩ := hs s rfl
      simpa [serialTailChars] using matchSerialTail_some s d cls hsne hsT hd hcls hclsT
  simp only [matchGrammar, composeChars, hsp1.1, hsp1.2, hit, if_neg, hsp2.1, hsp2.2,
    hsp3.1, hsp3.2, hsp4.1, hsp4.2, hm, hc, hser]
  simp [hit, hm, hc]

/-! ## `ParseUint` value lemmas -/

theorem charDigit_digitChar {d : Nat} (h : d < 16) : charDigit (digitChar d) = some d := by
  interval_cases d <;> decide

theorem digitChar_ne_underscore {d : Nat} (h : d < 16) : digitChar d ≠ '_' := by
  interval_cases d <;> decide

theorem isDigitChar_digitChar {d : Nat} (h : d < 10) : isDigitChar (digitChar d) = true := by
  interval_cases d <;> decide

theorem isTok_digitChar {d : Nat} (h : d < 16) : isTok (digitChar d) = true := by
  interval_cases d <;> decide

theorem digitChar_ne_zero {d : Nat} (h0 : d ≠ 0) (h : d < 16) : digitChar d ≠ '0' := by
  interval_cases d <;> first | exact absurd rfl h0 | decide

/-- The digit loop distributes over appending digit runs. -/
theorem parseUintLoop_append (base maxVal : Nat) (b0 : Bool) (l1 l2 : List Char) (n : Nat) :
    parseUintLoop base maxVal b0 (l1 ++ l2) n =
      match parseUintLoop base maxVal b0 l1 n with
      | some n' => parseUintLoop base maxVal b0 l2 n'
      | none => none := by
  induction l1 generalizing n with
  | nil => simp [parseUintLoop]
  | cons a l ih =>
    by_cases hu : a = '_' ∧ b0 = true
    · simp only [List.cons_append, parseUintLoop, if_pos hu]
      exact ih n
    · simp only [List.cons_append, parseUintLoop, if_neg hu]
      cases hch : charDigit a with
      | none => rfl
      | some dd =>
        by_cases hb : base ≤ dd
        · simp [hb]
        · by_cases hmax : maxVal < n * base + dd
          · simp [hb, hmax]
          · simp only [if_neg hb, if_neg hmax]
            exact ih _

/-- The digit loop never exceeds `maxVal`. -/
theorem parseUintLoop_le (base maxVal : Nat) (b0 : Bool) (l : List Char) :
    ∀ n v, n ≤ maxVal → parseUintLoop base maxVal b0 l n = some v → v ≤ maxVal := by
  induction l with
  | nil =>
    intro n v hn h
    simp only [parseUintLoop, Option.some.injEq] at h
    omega
  | cons a l ih =>
    intro n v hn h
    simp only [parseUintLoop] at h
    split at h
    · exact ih n v hn h
    · cases hch : charDigit a with
      | none => simp only [hch] at h; cases h
      | some dd =>
        simp only [hch] at h
        by_cases hb : base ≤ dd
        · rw [if_pos hb] at h; cases h
        · rw [if_neg hb] at h
          by_cases hmax : maxVal < n * base + dd
          · rw [if_pos hmax] at h; cases h
          · rw [if_neg hmax] at h
            exact ih _ v (by omega) h

/-- The underscore validation only filters: a `some` result is the
loop's result. -/
theorem applyUnderscoreCheck_eq_some {base0 : Bool} {stripped s0 : List Char}
    {r : Option Nat} {v : Nat} (h : applyUnderscoreCheck base0 stripped s0 r = some v) :
    r = some v := by
  cases r with
  | none => cases h
  | some n =>
    simp only [applyUnderscoreCheck] at h
    by_cases hc : base0 = true ∧ '_' ∈ stripped
    · rw [if_pos hc] at h
      by_cases hd : underscoreOK s0 = true
      · rw [if_pos hd] at h; exact h
      · rw [if_neg hd] at h; cases h
    · rw [if_neg hc] at h; exact h

/-- Without an underscore in the digit text, the validation is the
identity. -/
theorem applyUnderscoreCheck_no_underscore {base0 : Bool} {stripped s0 : List Char}
    {r : Option Nat} (h : '_' ∉ stripped) :
    applyUnderscoreCheck base0 stripped s0 r = r := by
  cases r with
  | none => rfl
  | some n =>
    simp only [applyUnderscoreCheck]
    rw [if_neg (by rintro ⟨-, hmem⟩; exact h hmem)]

/-- `strconv.ParseUint` never returns a value above `2^bitSize - 1`. -/
theorem goParseUint_le (s : List Char) (base bits v : Nat)
    (h : goParseUint s base bits = some v) : v ≤ 2 ^ bits - 1 := by
  unfold goParseUint at h
  split at h
  · cases h
  · simp only at h
    exact parseUintLoop_le _ _ _ _ 0 v (Nat.zero_le _) (applyUnderscoreCheck_eq_some h)

theorem toDigitsAux_mem (b2 : Nat) (n : Nat) :
    ∀ a ∈ toDigitsAux b2 n, ∃ d, d < b2 + 2 ∧ a = digitChar d := by
  induction n using Nat.strong_induction_on with
  | _ n ih =>
    rw [toDigitsAux]
    split
    · simp
    · rename_i hn
      intro a ha
      rcases List.mem_append.1 ha with h1 | h2
      · exact ih (n / (b2 + 2)) (Nat.div_lt_self (Nat.pos_of_ne_zero hn) (by omega)) a h1
      · simp only [List.mem_singleton] at h2
        exact ⟨n % (b2 + 2), Nat.mod_lt _ (by omega), h2⟩

/-- The most significant rendered digit of a positive number is not `'0'`. -/
theorem toDigitsAux_head_ne_zero (b2 : Nat) (hb : b2 + 2 ≤ 16) (n : Nat) (hn : n ≠ 0) :
    ∃ c cs, toDigitsAux b2 n = c :: cs ∧ c ≠ '0' := by
  induction n using Nat.strong_induction_on with
  | _ n ih =>
    rw [toDigitsAux, dif_neg hn]
    by_cases hdiv : n / (b2 + 2) = 0
    · have hlt : n < b2 + 2 := (Nat.div_eq_zero_iff (by omega)).1 hdiv
      have hmod : n % (b2 + 2) = n := Nat.mod_eq_of_lt hlt
      rw [toDigitsAux, dif_pos hdiv, List.nil_append, hmod]
      exact ⟨digitChar n, [], rfl, digitChar_ne_zero hn (by omega)⟩
    · obtain ⟨c, cs, hcc, hcz⟩ :=
        ih (n / (b2 + 2)) (Nat.div_lt_self (Nat.pos_of_ne_zero hn) (by omega)) hdiv
      exact ⟨c, cs ++ [digitChar (n % (b2 + 2))], by rw [hcc]; rfl, hcz⟩

theorem toDigitsAux_ne_nil (b2 : Nat) (n : Nat) (hn : n ≠ 0) : toDigitsAux b2 n ≠ [] := by
  rw [toDigitsAux, dif_neg hn]
  simp

/-- The digit loop reads the rendered digits of `n` back, extending the
accumulator positionally. -/
theorem parseUintLoop_toDigitsAux (b2 maxVal : Nat) (b0 : Bool) (hb : b2 + 2 ≤ 16) :
    ∀ n acc, acc * (b2 + 2) ^ (toDigitsAux b2 n).length + n ≤ maxVal →
      parseUintLoop (b2 + 2) maxVal b0 (toDigitsAux b2 n) acc =
        some (acc * (b2 + 2) ^ (toDigitsAux b2 n).length + n) := by
  intro n
  induction n using Nat.strong_induction_on with
  | _ n ih =>
    intro acc hle
    by_cases hn : n = 0
    · subst hn
      rw [toDigitsAux, dif_pos rfl]
      simp [parseUintLoop]
    · have heq : toDigitsAux b2 n =
          toDigitsAux b2 (n / (b2 + 2)) ++ [digitChar (n % (b2 + 2))] := by
        rw [toDigitsAux, dif_neg hn]
      rw [heq] at hle ⊢
      have hlen : (toDigitsAux b2 (n / (b2 + 2)) ++ [digitChar (n % (b2 + 2))]).length =
          (toDigitsAux b2 (n / (b2 + 2))).length + 1 := by simp
      rw [hlen] at hle ⊢
      have hmod : n % (b2 + 2) < b2 + 2 := Nat.mod_lt _ (by omega)
      have hkey : (acc * (b2 + 2) ^ (toDigitsAux b2 (n / (b2 + 2))).length + n / (b2 + 2)) *
            (b2 + 2) + n % (b2 + 2) =
          acc * (b2 + 2) ^ ((toDigitsAux b2 (n / (b2 + 2))).length + 1) + n := by
        have hdm : (b2 + 2) * (n / (b2 + 2)) + n % (b2 + 2) = n := Nat.div_add_mod n (b2 + 2)
        calc (acc * (b2 + 2) ^ (toDigitsAux b2 (n / (b2 + 2))).length + n / (b2 + 2)) *
              (b2 + 2) + n % (b2 + 2)
            = acc * ((b2 + 2) ^ (toDigitsAux b2 (n / (b2 + 2))).length * (b2 + 2)) +
              ((b2 + 2) * (n / (b2 + 2)) + n % (b2 + 2)) := by ring
          _ = acc * (b2 + 2) ^ ((toDigitsAux b2 (n / (b2 + 2))).length + 1) + n := by
              rw [hdm, pow_succ]
      have hb1 : acc * (b2 + 2) ^ (toDigitsAux b2 (n / (b2 + 2))).length + n / (b2 + 2) ≤
          maxVal := by
        have hx : acc * (b2 + 2) ^ (toDigitsAux b2 (n / (b2 + 2))).length + n / (b2 + 2) ≤
            (acc * (b2 + 2) ^ (toDigitsAux b2 (n / (b2 + 2))).length + n / (b2 + 2)) *
              (b2 + 2) + n % (b2 + 2) := by
          have := Nat.le_mul_of_pos_right
            (acc * (b2 + 2) ^ (toDigitsAux b2 (n / (b2 + 2))).length + n / (b2 + 2))
            (show 0 < b2 + 2 by omega)
          omega
        omega
      rw [parseUintLoop_append]
      rw [ih (n / (b2 + 2)) (Nat.div_lt_self (Nat.pos_of_ne_zero hn) (by omega)) acc hb1]
      have hne : ¬(digitChar (n % (b2 + 2)) = '_' ∧ b0 = true) := by
        rintro ⟨hch, -⟩
        exact digitChar_ne_underscore (by omega) hch
      simp only [parseUintLoop, if_neg hne, charDigit_digitChar (show n % (b2 + 2) < 16 by omega)]
      rw [if_neg (by omega : ¬ b2 + 2 ≤ n % (b2 + 2)), hkey, if_neg (by omega)]

/-- Reading a run of `'0'` padding leaves a zero accumulator at zero. -/
theorem parseUintLoop_zeros (base maxVal : Nat) (b0 : Bool) (hbase : 0 < base) :
    ∀ k, parseUintLoop base maxVal b0 (List.replicate k '0') 0 = some 0 := by
  intro k
  induction k with
  | zero => rfl
  | succ k ih =>
    have h0 : charDigit '0' = some 0 := by decide
    have hne : ¬('0' = '_' ∧ b0 = true) := by
      rintro ⟨h, -⟩; exact absurd h (by decide)
    simp only [List.replicate_succ, parseUintLoop, if_neg hne, h0, Nat.zero_mul, Nat.add_zero,
      Nat.zero_add]
    rw [if_neg (by omega : ¬ base ≤ 0), if_neg (by omega : ¬ maxVal < 0)]
    exact ih

/-! ## Canonical tokens round-trip through `ParseUint` -/

theorem natToDec_all_digits (n : Nat) : ∀ a ∈ natToDec n, isDigitChar a = true := by
  unfold natToDec
  split
  · intro a ha
    simp only [List.mem_singleton] at ha
    subst ha; decide
  · intro a ha
    obtain ⟨d, hd, he⟩ := toDigitsAux_mem 8 n a ha
    subst he
    exact isDigitChar_digitChar (by omega)

theorem natToDec_ne_nil (n : Nat) : natToDec n ≠ [] := by
  unfold natToDec
  split
  · simp
  · exact toDigitsAux_ne_nil 8 n (by assumption)

theorem hex4_mem (n : Nat) : ∀ a ∈ hex4 n, ∃ d, d < 16 ∧ a = digitChar d := by
  intro a ha
  unfold hex4 at ha
  rcases List.mem_append.1 ha with h | h
  · rw [List.eq_of_mem_replicate h]
    exact ⟨0, by omega, by decide⟩
  · obtain ⟨d, hd, he⟩ := toDigitsAux_mem 14 n a h
    exact ⟨d, by omega, he⟩

theorem hexTok_all_toks (n : Nat) : ∀ a ∈ hexTok n, isTok a = true := by
  intro a ha
  unfold hexTok at ha
  rcases List.mem_cons.1 ha with rfl | ha2
  · decide
  · rcases List.mem_cons.1 ha2 with rfl | ha3
    · decide
    · obtain ⟨d, hd, he⟩ := hex4_mem n a ha3
      subst he
      exact isTok_digitChar hd

theorem hex4_ne_nil (n : Nat) : hex4 n ≠ [] := by
  unfold hex4
  intro h
  obtain ⟨h1, h2⟩ := List.append_eq_nil.1 h
  rw [h2, List.length_nil, Nat.sub_zero] at h1
  exact absurd h1 (by decide)

theorem detectBase_not_zero {c : Char} (h : c ≠ '0') (cs : List Char) :
    detectBase (c :: cs) = (10, c :: cs) := by
  simp [detectBase, h]

theorem detectBase_zero_x (rest2 : List Char) (h : rest2 ≠ []) :
    detectBase ('0' :: 'x' :: rest2) = (16, rest2) := by
  show (if goLower 'x' = 'b' ∧ rest2 ≠ [] then ((2 : Nat), rest2)
        else if goLower 'x' = 'o' ∧ rest2 ≠ [] then (8, rest2)
        else if goLower 'x' = 'x' ∧ rest2 ≠ [] then (16, rest2)
        else (8, 'x' :: rest2)) = (16, rest2)
  rw [if_neg (by rintro ⟨h1, -⟩; exact absurd h1 (by decide))]
  rw [if_neg (by rintro ⟨h1, -⟩; exact absurd h1 (by decide))]
  rw [if_pos ⟨by decide, h⟩]

/-- `goParseUint` with caller base 0 is prefix detection, the digit
loop, and the underscore validation. -/
theorem goParseUint_base0 (s0 : List Char) (bits : Nat) (hne : s0 ≠ []) :
    goParseUint s0 0 bits =
      applyUnderscoreCheck true (detectBase s0).2 s0
        (parseUintLoop (detectBase s0).1 (2 ^ bits - 1) true (detectBase s0).2 0) := by
  unfold goParseUint
  rw [if_neg hne]
  rfl

theorem goParseUint_natToDec (b bits : Nat) (hb : b ≤ 2 ^ bits - 1) :
    goParseUint (natToDec b) 0 bits = some b := by
  by_cases hb0 : b = 0
  · subst hb0; rfl
  · have hnat : natToDec b = toDigitsAux 8 b := by rw [natToDec, if_neg hb0]
    obtain ⟨c, cs, hcc, hcz⟩ := toDigitsAux_head_ne_zero 8 (by omega) b hb0
    have hne : toDigitsAux 8 b ≠ [] := toDigitsAux_ne_nil 8 b hb0
    have hnu : '_' ∉ toDigitsAux 8 b := by
      intro hmem
      obtain ⟨d, hd, he⟩ := toDigitsAux_mem 8 b '_' hmem
      exact digitChar_ne_underscore (by omega) he.symm
    have hloop : parseUintLoop 10 (2 ^ bits - 1) true (toDigitsAux 8 b) 0 = some b := by
      have := parseUintLoop_toDigitsAux 8 (2 ^ bits - 1) true (by omega) b 0 (by simpa using hb)
      simpa using this
    have hdb : detectBase (toDigitsAux 8 b) = (10, toDigitsAux 8 b) := by
      rw [hcc]; exact detectBase_not_zero hcz cs
    rw [hnat, goParseUint_base0 _ bits hne, hdb]
    simp only
    rw [hloop, applyUnderscoreCheck_no_underscore hnu]

theorem goParseUint_hexTok (m : Nat) (hm : m ≤ 65535) :
    goParseUint (hexTok m) 0 16 = some m := by
  have hnu : '_' ∉ hex4 m := by
    intro hmem
    obtain ⟨d, hd, he⟩ := hex4_mem m '_' hmem
    exact digitChar_ne_underscore hd he.symm
  have hdb : detectBase (hexTok m) = (16, hex4 m) :=
    detectBase_zero_x (hex4 m) (hex4_ne_nil m)
  have hloop : parseUintLoop 16 (2 ^ 16 - 1) true (hex4 m) 0 = some m := by
    have hzeros := parseUintLoop_zeros 16 (2 ^ 16 - 1) true (by omega)
      (4 - (natToHex m).length)
    have hdig : parseUintLoop 16 (2 ^ 16 - 1) true (natToHex m) 0 = some m := by
      have := parseUintLoop_toDigitsAux 14 (2 ^ 16 - 1) true (by omega) m 0
        (by simp only [Nat.zero_mul, Nat.zero_add]; norm_num; omega)
      simpa [natToHex] using this
    rw [show hex4 m = List.replicate (4 - (natToHex m).length) '0' ++ natToHex m from rfl]
    rw [parseUintLoop_append, hzeros]
    simp only
    exact hdig
  have hne : hexTok m ≠ [] := by simp [hexTok]
  rw [goParseUint_base0 _ 16 hne, hdb]
  simp only
  rw [hloop, applyUnderscoreCheck_no_underscore hnu]

theorem parseNumField_natToDec (b bits : Nat) (hb : b ≤ 2 ^ bits - 1) :
    parseNumField (natToDec b) 0 bits (-1) = some (Int.ofNat b) := by
  unfold parseNumField
  rw [if_neg (natToDec_ne_nil b), goParseUint_natToDec b bits hb]
  rfl

theorem parseNumField_hexTok (m : Nat) (hm : m ≤ 65535) :
    parseNumField (hexTok m) 0 16 (-1) = some (Int.ofNat m) := by
  unfold parseNumField
  rw [if_neg (by simp [hexTok] : hexTok m ≠ []), goParseUint_hexTok m hm]
  rfl

/-! ## The parser on composed identifiers -/

/-- `parseVisaResource` on an identifier of the grammar's shape with a
`USB` interface type and parseable numeric fields: everything up to the
resource-class check succeeds, and the result is decided by that
check. -/
theorem parseVisaResource_compose_core
    (it bi m c : List Char) (s? : Option (List Char)) (d cls : List Char)
    {bv mv cv dv : Int}
    (hitL : ∀ a ∈ it, isGoLetter a = true)
    (hbi : ∀ a ∈ bi, isDigitChar a = true)
    (hm : m ≠ []) (hmT : ∀ a ∈ m, isTok a = true)
    (hc : c ≠ []) (hcT : ∀ a ∈ c, isTok a = true)
    (hs : ∀ s ∈ s?, s ≠ [] ∧ ∀ a ∈ s, isTok a = true)
    (hd : ∀ a ∈ d, isDigitChar a = true)
    (hcls : cls ≠ []) (hclsT : ∀ a ∈ cls, isTok a = true)
    (hUSB : goToUpperL it = "USB".data)
    (hbv : parseNumField bi 0 16 (-1) = some bv)
    (hmv : parseNumField m 0 16 (-1) = some mv)
    (hcv : parseNumField c 0 16 (-1) = some cv)
    (hdv : parseNumField d 0 10 (-1) = some dv) :
    parseVisaResource (composeIdent it bi m c s? d cls) =
      if goToUpperL cls ≠ "INSTR".data then
        ({ resourceString := composeIdent it bi m c s? d cls, interfaceType := "USB",
           boardIndex := bv, manufacturerID := mv, modelCode := cv,
           serialNumber := String.mk (s?.getD []), interfaceIndex := dv,
           resourceClass := "" }, some VisaError.resourceClassNotINSTR)
      else
        ({ resourceString := composeIdent it bi m c s? d cls, interfaceType := "USB",
           boardIndex := bv, manufacturerID := mv, modelCode := cv,
           serialNumber := String.mk (s?.getD []), interfaceIndex := dv,
           resourceClass := "INSTR" }, none) := by
  have hit : it ≠ [] := by
    intro hnil; rw [hnil] at hUSB; exact absurd hUSB (by decide)
  have hgram := matchGrammar_compose it bi m c s? d cls hit hitL hbi hm hmT hc hcT hs
    hd hcls hclsT
  have hdata : (composeIdent it bi m c s? d cls).data = composeChars it bi m c s? d cls := rfl
  simp only [parseVisaResource, hdata, hgram, Option.getD_some, hUSB, hbv, hmv, hcv, hdv]
  simp

/-! ## Inverting a successful parse -/

/-- A successful parse matched the grammar, parsed every numeric
capture, and produced exactly the fully-populated record. -/
theorem parseVisaResource_ok_inv (s : String) (h : (parseVisaResource s).2 = none) :
    ∃ cap, matchGrammar s.data = some cap ∧
      ∃ bv mv cv iv : Int,
        parseNumField cap.boardIndex 0 16 (-1) = some bv ∧
        parseNumField cap.manufacturerID 0 16 (-1) = some mv ∧
        parseNumField cap.modelCode 0 16 (-1) = some cv ∧
        parseNumField cap.interfaceIndex 0 10 (-1) = some iv ∧
        (parseVisaResource s).1 =
          { resourceString := s, interfaceType := "USB", boardIndex := bv,
            manufacturerID := mv, modelCode := cv,
            serialNumber := String.mk cap.serialNumber,
            interfaceIndex := iv, resourceClass := "INSTR" } := by
  cases hg : matchGrammar s.data with
  | none =>
    exfalso
    simp only [parseVisaResource, hg, Option.getD_none] at h
    rw [if_pos (by decide : goToUpperL emptyCaptures.interfaceType ≠ "USB".data)] at h
    cases h
  | some cap =>
    refine ⟨cap, rfl, ?_⟩
    by_cases hu : goToUpperL cap.interfaceType ≠ "USB".data
    · exfalso
      simp only [parseVisaResource, hg, Option.getD_some, if_pos hu] at h
      cases h
    · cases hbv : parseNumField cap.boardIndex 0 16 (-1) with
      | none =>
        exfalso
        simp only [parseVisaResource, hg, Option.getD_some, if_neg hu, hbv] at h
        cases h
      | some bv =>
        cases hmv : parseNumField cap.manufacturerID 0 16 (-1) with
        | none =>
          exfalso
          simp only [parseVisaResource, hg, Option.getD_some, if_neg hu, hbv, hmv] at h
          cases h
        | some mv =>
          cases hcv : parseNumField cap.modelCode 0 16 (-1) with
          | none =>
            exfalso
            simp only [parseVisaResource, hg, Option.getD_some, if_neg hu, hbv, hmv, hcv] at h
            cases h
          | some cv =>
            cases hiv : parseNumField cap.interfaceIndex 0 10 (-1) with
            | none =>
              exfalso
              simp only [parseVisaResource, hg, Option.getD_some, if_neg hu, hbv, hmv, hcv,
                hiv] at h
              cases h
            | some iv =>
              by_cases hcl : goToUpperL cap.resourceClass ≠ "INSTR".data
              · exfalso
                simp only [parseVisaResource, hg, Option.getD_some, if_neg hu, hbv, hmv, hcv,
                  hiv, if_pos hcl] at h
                cases h
              · refine ⟨bv, mv, cv, iv, rfl, rfl, rfl, rfl, ?_⟩
                simp only [parseVisaResource, hg, Option.getD_some, if_neg hu, hbv, hmv, hcv,
                  hiv, if_neg hcl]

/-- A grammar match always captures non-empty manufacturer-ID and
model-code tokens. -/
theorem matchGrammar_some_nonempty (l : List Char) (cap : Captures)
    (h : matchGrammar l = some cap) :
    cap.manufacturerID ≠ [] ∧ cap.modelCode ≠ [] := by
  simp only [matchGrammar] at h
  split at h
  · cases h
  · split at h
    · split at h
      · cases h
      · split at h
        · split at h
          · cases h
          · split at h
            · cases h
              exact ⟨by assumption, by assumption⟩
            · cases h
        · cases h
    · cases h

/-- A parsed 16-bit numeric field sits in `[0, 65535]`. -/
theorem parseNumField_bound16 {tok : List Char} {v : Int}
    (hne : tok ≠ []) (h : parseNumField tok 0 16 (-1) = some v) :
    0 ≤ v ∧ v ≤ 65535 := by
  unfold parseNumField at h
  rw [if_neg hne] at h
  cases hg : goParseUint tok 0 16 with
  | none => rw [hg] at h; cases h
  | some u =>
    rw [hg] at h
    simp only [Option.map_some'] at h
    have hb := goParseUint_le tok 0 16 u hg
    have hb' : u ≤ 65535 := by omega
    cases h
    constructor
    · exact Int.ofNat_nonneg u
    · rw [Int.ofNat_eq_natCast]
      omega

/-! ## The claims -/

/-- Claim C1 (counterexample): the input `"::"` does not match the
grammar at all, yet its parse error is exactly the error returned for
the grammar-matching identifier `GPIB0::…::INSTR` whose interface type
is merely not USB — so a non-matching input does not fail with a
distinct `MalformedIdentifier` error kind. -/
theorem c1_counterexample :
    matchGrammar ("::".data) = none ∧
    (matchGrammar ("GPIB0::0x1234::0x5678::A12345::0::INSTR".data)).isSome = true ∧
    (parseVisaResource "::").2 = some VisaError.interfaceTypeNotUSB ∧
    (parseVisaResource "GPIB0::0x1234::0x5678::A12345::0::INSTR").2 =
      some VisaError.interfaceTypeNotUSB := by decide

/-- Claim C1 (amended): every input that does not match the grammar
fails with the same interface-type error (`"visa: interface type was
not usb"`) that is returned for unsupported interface types, because a
failed match leaves the capture map empty and the empty interface-type
capture fails the USB comparison; there is no distinct
`MalformedIdentifier` error kind in the program. -/
theorem c1_nonmatching_fails_with_interface_type_error (s : String)
    (h : matchGrammar s.data = none) :
    (parseVisaResource s).2 = some VisaError.interfaceTypeNotUSB := by
  simp only [parseVisaResource, h, Option.getD_none]
  rw [if_pos (by decide : goToUpperL emptyCaptures.interfaceType ≠ "USB".data)]

/-- Witness for C1's amended theorem at the concrete non-matching
input `"xyz"`. -/
theorem c1_witness :
    matchGrammar ("xyz".data) = none ∧
    (parseVisaResource "xyz").2 = some VisaError.interfaceTypeNotUSB :=
  ⟨by decide, c1_nonmatching_fails_with_interface_type_error "xyz" (by decide)⟩

/-- Claim C2 (counterexample): the identifier
`USB0::zz::0x5678::A12345::0::SOCKET` has resource class `SOCKET`
(not INSTR in any case), yet parsing fails with the manufacturer-ID
error, not the resource-class error: unparseable earlier fields take
precedence, refuting the claim's "including identifiers whose other
fields are themselves unparseable". -/
theorem c2_counterexample :
    (parseVisaResource "USB0::zz::0x5678::A12345::0::SOCKET").2 =
      some VisaError.manufacturerIDError ∧
    VisaError.manufacturerIDError ≠ VisaError.resourceClassNotINSTR := by decide

/-- Claim C2 (amended): for every identifier matching the grammar whose
interface type is USB (case-insensitively) and whose board-index,
manufacturer-ID, model-code and interface-index captures all parse, a
resource class differing case-insensitively from INSTR makes parsing
fail with the resource-class error; earlier field errors take
precedence over the resource-class check, which runs last. -/
theorem c2_resource_class_error_after_earlier_checks
    (it bi m c : List Char) (s? : Option (List Char)) (d cls : List Char)
    (bv mv cv dv : Int)
    (hitL : ∀ a ∈ it, isGoLetter a = true)
    (hbi : ∀ a ∈ bi, isDigitChar a = true)
    (hm : m ≠ []) (hmT : ∀ a ∈ m, isTok a = true)
    (hc : c ≠ []) (hcT : ∀ a ∈ c, isTok a = true)
    (hs : ∀ s ∈ s?, s ≠ [] ∧ ∀ a ∈ s, isTok a = true)
    (hd : ∀ a ∈ d, isDigitChar a = true)
    (hcls : cls ≠ []) (hclsT : ∀ a ∈ cls, isTok a = true)
    (hUSB : goToUpperL it = "USB".data)
    (hbv : parseNumField bi 0 16 (-1) = some bv)
    (hmv : parseNumField m 0 16 (-1) = some mv)
    (hcv : parseNumField c 0 16 (-1) = some cv)
    (hdv : parseNumField d 0 10 (-1) = some dv)
    (hnc : goToUpperL cls ≠ "INSTR".data) :
    (parseVisaResource (composeIdent it bi m c s? d cls)).2 =
      some VisaError.resourceClassNotINSTR := by
  rw [parseVisaResource_compose_core it bi m c s? d cls hitL hbi hm hmT hc hcT hs hd
    hcls hclsT hUSB hbv hmv hcv hdv, if_pos hnc]

/-- Witness for C2's amended theorem at the concrete identifier
`USB0::0x1234::0x5678::A12345::0::SOCKET`. -/
theorem c2_witness :
    (parseVisaResource (composeIdent "USB".data ['0'] "0x1234".data "0x5678".data
        (some "A12345".data) ['0'] "SOCKET".data)).2 =
      some VisaError.resourceClassNotINSTR :=
  c2_resource_class_error_after_earlier_checks "USB".data ['0'] "0x1234".data "0x5678".data
    (some "A12345".data) ['0'] "SOCKET".data 0 4660 22136 0
    (by decide) (by decide) (by decide) (by decide) (by decide) (by decide)
    (by decide) (by decide) (by decide) (by decide) (by decide) (by decide)
    (by decide) (by decide) (by decide) (by decide)

theorem stringMk_ne_empty {s : List Char} (h : s ≠ []) : String.mk s ≠ "" := by
  intro he
  exact h (by simpa using congrArg String.data he)

/-- Rendering the record a successful parse of a canonical-token
identifier produces: each field written back in its canonical form. -/
theorem renderResource_record (b m c i : Nat) (s? : Option (List Char)) (rs : String)
    (hs : ∀ s ∈ s?, s ≠ [] ∧ ∀ a ∈ s, isTok a = true) :
    renderResource
      { resourceString := rs, interfaceType := "USB", boardIndex := Int.ofNat b,
        manufacturerID := Int.ofNat m, modelCode := Int.ofNat c,
        serialNumber := String.mk (s?.getD []), interfaceIndex := Int.ofNat i,
        resourceClass := "INSTR" } =
      composeIdent "USB".data (natToDec b) (hexTok m) (hexTok c) s? (natToDec i)
        "INSTR".data := by
  have hbn : ¬ ((Int.ofNat b) < 0) := by rw [Int.ofNat_eq_natCast]; omega
  have hin : ¬ ((Int.ofNat i) < 0) := by rw [Int.ofNat_eq_natCast]; omega
  unfold renderResource
  dsimp only
  rw [if_neg hbn, if_neg hin]
  simp only [Int.ofNat_eq_natCast, Int.toNat_natCast]
  cases s? with
  | none => simp
  | some s =>
    obtain ⟨hne, -⟩ := hs s rfl
    simp [stringMk_ne_empty hne]

/-- Claim C3: for every identifier of the shape
`<usb><b>::<m>::<c>(::<s>)?::<i>::<instr>` with the interface type and
resource class arbitrary-case spellings of USB/INSTR, `b` and `i`
canonical decimal tokens and `m`, `c` canonical `0x`-hex tokens,
parsing succeeds with exactly those field values, rendering the parsed
fields back in the grammar's textual form reproduces the normalized
identifier (uppercase `USB`/`INSTR`, all other segments verbatim), and
parsing that rendered identifier succeeds with the same fields — so
render-then-reparse is a fixed point. -/
theorem c3_parse_render_roundtrip
    (it cls : List Char) (b m c i : Nat) (s? : Option (List Char))
    (hitL : ∀ a ∈ it, isGoLetter a = true)
    (hUSB : goToUpperL it = "USB".data)
    (hcls : cls ≠ []) (hclsT : ∀ a ∈ cls, isTok a = true)
    (hINSTR : goToUpperL cls = "INSTR".data)
    (hs : ∀ s ∈ s?, s ≠ [] ∧ ∀ a ∈ s, isTok a = true)
    (hb : b ≤ 65535) (hm : m ≤ 65535) (hc : c ≤ 65535) (hi : i ≤ 1023) :
    parseVisaResource (composeIdent it (natToDec b) (hexTok m) (hexTok c) s?
        (natToDec i) cls) =
      ({ resourceString := composeIdent it (natToDec b) (hexTok m) (hexTok c) s?
           (natToDec i) cls,
         interfaceType := "USB", boardIndex := Int.ofNat b,
         manufacturerID := Int.ofNat m, modelCode := Int.ofNat c,
         serialNumber := String.mk (s?.getD []), interfaceIndex := Int.ofNat i,
         resourceClass := "INSTR" }, none) ∧
    renderResource
      { resourceString := composeIdent it (natToDec b) (hexTok m) (hexTok c) s?
          (natToDec i) cls,
        interfaceType := "USB", boardIndex := Int.ofNat b,
        manufacturerID := Int.ofNat m, modelCode := Int.ofNat c,
        serialNumber := String.mk (s?.getD []), interfaceIndex := Int.ofNat i,
        resourceClass := "INSTR" } =
      composeIdent "USB".data (natToDec b) (hexTok m) (hexTok c) s? (natToDec i)
        "INSTR".data ∧
    parseVisaResource (composeIdent "USB".data (natToDec b) (hexTok m) (hexTok c) s?
        (natToDec i) "INSTR".data) =
      ({ resourceString := composeIdent "USB".data (natToDec b) (hexTok m) (hexTok c) s?
           (natToDec i) "INSTR".data,
         interfaceType := "USB", boardIndex := Int.ofNat b,
         manufacturerID := Int.ofNat m, modelCode := Int.ofNat c,
         serialNumber := String.mk (s?.getD []), interfaceIndex := Int.ofNat i,
         resourceClass := "INSTR" }, none) := by
  have hmain := parseVisaResource_compose_core it (natToDec b) (hexTok m) (hexTok c) s?
    (natToDec i) cls hitL (natToDec_all_digits b) (by simp [hexTok]) (hexTok_all_toks m)
    (by simp [hexTok]) (hexTok_all_toks c) hs (natToDec_all_digits i) hcls hclsT hUSB
    (parseNumField_natToDec b 16 (by simpa using hb)) (parseNumField_hexTok m hm)
    (parseNumField_hexTok c hc) (parseNumField_natToDec i 10 (by simpa using hi))
  rw [if_neg (by rw [hINSTR]; simp)] at hmain
  have hmain2 := parseVisaResource_compose_core "USB".data (natToDec b) (hexTok m)
    (hexTok c) s? (natToDec i) "INSTR".data (by decide) (natToDec_all_digits b)
    (by simp [hexTok]) (hexTok_all_toks m) (by simp [hexTok]) (hexTok_all_toks c) hs
    (natToDec_all_digits i) (by decide) (by decide) (by decide)
    (parseNumField_natToDec b 16 (by simpa using hb)) (parseNumField_hexTok m hm)
    (parseNumField_hexTok c hc) (parseNumField_natToDec i 10 (by simpa using hi))
  rw [if_neg (by decide)] at hmain2
  exact ⟨hmain, renderResource_record b m c i s? _ hs, hmain2⟩

/-- Witness for C3 at `usb0::0x1234::0x5678::A12345::0::instr`
(lowercase interface type and resource class). -/
theorem c3_witness :
    parseVisaResource (composeIdent "usb".data (natToDec 0) (hexTok 4660) (hexTok 22136)
        (some "A12345".data) (natToDec 0) "instr".data) =
      ({ resourceString := composeIdent "usb".data (natToDec 0) (hexTok 4660) (hexTok 22136)
           (some "A12345".data) (natToDec 0) "instr".data,
         interfaceType := "USB", boardIndex := Int.ofNat 0,
         manufacturerID := Int.ofNat 4660, modelCode := Int.ofNat 22136,
         serialNumber := String.mk ((some "A12345".data).getD []),
         interfaceIndex := Int.ofNat 0,
         resourceClass := "INSTR" }, none) ∧
    renderResource
      { resourceString := composeIdent "usb".data (natToDec 0) (hexTok 4660) (hexTok 22136)
          (some "A12345".data) (natToDec 0) "instr".data,
        interfaceType := "USB", boardIndex := Int.ofNat 0,
        manufacturerID := Int.ofNat 4660, modelCode := Int.ofNat 22136,
        serialNumber := String.mk ((some "A12345".data).getD []),
        interfaceIndex := Int.ofNat 0,
        resourceClass := "INSTR" } =
      composeIdent "USB".data (natToDec 0) (hexTok 4660) (hexTok 22136)
        (some "A12345".data) (natToDec 0) "INSTR".data ∧
    parseVisaResource (composeIdent "USB".data (natToDec 0) (hexTok 4660) (hexTok 22136)
        (some "A12345".data) (natToDec 0) "INSTR".data) =
      ({ resourceString := composeIdent "USB".data (natToDec 0) (hexTok 4660) (hexTok 22136)
           (some "A12345".data) (natToDec 0) "INSTR".data,
         interfaceType := "USB", boardIndex := Int.ofNat 0,
         manufacturerID := Int.ofNat 4660, modelCode := Int.ofNat 22136,
         serialNumber := String.mk ((some "A12345".data).getD []),
         interfaceIndex := Int.ofNat 0,
         resourceClass := "INSTR" }, none) :=
  c3_parse_render_roundtrip "usb".data "instr".data 0 4660 22136 0 (some "A12345".data)
    (by decide) (by decide) (by decide) (by decide) (by decide) (by decide)
    (by decide) (by decide) (by decide) (by decide)

/-- Claim C4: parsing `USB0::0x1234::0x5678::A12345::0::INSTR` succeeds
with board index 0, manufacturer ID 0x1234 = 4660, model code
0x5678 = 22136, serial number "A12345", interface index 0, interface
type "USB" and resource class "INSTR". -/
theorem c4_concrete_scenario :
    parseVisaResource "USB0::0x1234::0x5678::A12345::0::INSTR" =
      ({ resourceString := "USB0::0x1234::0x5678::A12345::0::INSTR",
         interfaceType := "USB", boardIndex := 0, manufacturerID := 4660,
         modelCode := 22136, serialNumber := "A12345", interfaceIndex := 0,
         resourceClass := "INSTR" }, none) := by decide

/-- Claim C5: an identifier omitting the optional serial-number segment
parses successfully with serial number `""`, the interface index taken
from the remaining digit segment, and every other field identical to
the parse of the same identifier with a serial-number segment
present. -/
theorem c5_optional_serial
    (it bi m c S d cls : List Char) (bv mv cv dv : Int)
    (hitL : ∀ a ∈ it, isGoLetter a = true)
    (hbi : ∀ a ∈ bi, isDigitChar a = true)
    (hm : m ≠ []) (hmT : ∀ a ∈ m, isTok a = true)
    (hc : c ≠ []) (hcT : ∀ a ∈ c, isTok a = true)
    (hS : S ≠ []) (hST : ∀ a ∈ S, isTok a = true)
    (hd : ∀ a ∈ d, isDigitChar a = true)
    (hcls : cls ≠ []) (hclsT : ∀ a ∈ cls, isTok a = true)
    (hUSB : goToUpperL it = "USB".data)
    (hbv : parseNumField bi 0 16 (-1) = some bv)
    (hmv : parseNumField m 0 16 (-1) = some mv)
    (hcv : parseNumField c 0 16 (-1) = some cv)
    (hdv : parseNumField d 0 10 (-1) = some dv)
    (hINSTR : goToUpperL cls = "INSTR".data) :
    parseVisaResource (composeIdent it bi m c none d cls) =
      ({ resourceString := composeIdent it bi m c none d cls, interfaceType := "USB",
         boardIndex := bv, manufacturerID := mv, modelCode := cv,
         serialNumber := "", interfaceIndex := dv, resourceClass := "INSTR" }, none) ∧
    parseVisaResource (composeIdent it bi m c (some S) d cls) =
      ({ resourceString := composeIdent it bi m c (some S) d cls, interfaceType := "USB",
         boardIndex := bv, manufacturerID := mv, modelCode := cv,
         serialNumber := String.mk S, interfaceIndex := dv,
         resourceClass := "INSTR" }, none) := by
  constructor
  · have h1 := parseVisaResource_compose_core it bi m c none d cls hitL hbi hm hmT hc hcT
      (fun s hs => absurd hs (by simp)) hd hcls hclsT hUSB hbv hmv hcv hdv
    rw [if_neg (by rw [hINSTR]; simp)] at h1
    exact h1
  · have h2 := parseVisaResource_compose_core it bi m c (some S) d cls hitL hbi hm hmT hc hcT
      (fun s hs => by cases hs; exact ⟨hS, hST⟩) hd hcls hclsT hUSB hbv hmv hcv hdv
    rw [if_neg (by rw [hINSTR]; simp)] at h2
    exact h2

/-- Witness for C5 at `USB::0x1234::0x5678::0::INSTR` (no serial)
against `USB::0x1234::0x5678::A12345::0::INSTR`. -/
theorem c5_witness :
    parseVisaResource (composeIdent "USB".data [] "0x1234".data "0x5678".data
        none ['0'] "INSTR".data) =
      ({ resourceString := composeIdent "USB".data [] "0x1234".data "0x5678".data
           none ['0'] "INSTR".data, interfaceType := "USB",
         boardIndex := -1, manufacturerID := 4660, modelCode := 22136,
         serialNumber := "", interfaceIndex := 0, resourceClass := "INSTR" }, none) ∧
    parseVisaResource (composeIdent "USB".data [] "0x1234".data "0x5678".data
        (some "A12345".data) ['0'] "INSTR".data) =
      ({ resourceString := composeIdent "USB".data [] "0x1234".data "0x5678".data
           (some "A12345".data) ['0'] "INSTR".data, interfaceType := "USB",
         boardIndex := -1, manufacturerID := 4660, modelCode := 22136,
         serialNumber := String.mk "A12345".data, interfaceIndex := 0,
         resourceClass := "INSTR" }, none) :=
  c5_optional_serial "USB".data [] "0x1234".data "0x5678".data "A12345".data ['0']
    "INSTR".data (-1) 4660 22136 0
    (by decide) (by decide) (by decide) (by decide) (by decide) (by decide)
    (by decide) (by decide) (by decide) (by decide) (by decide) (by decide)
    (by decide) (by decide) (by decide) (by decide) (by decide)

/-- Claim C6: when the parser fails on an address, `OpenResource`
returns that parse error unchanged with no device handle, for every
possible device-lookup collaborator — so no lookup influences the
result. -/
theorem c6_open_resource_propagates_parse_error {Dev Handle DevErr : Type}
    (newDevice : Int → Int → String → Except DevErr Dev)
    (newUsbTmc : Dev → Nat → Handle) (addr : String) (termchar : Nat) (e : VisaError)
    (h : (parseVisaResource addr).2 = some e) :
    OpenResource newDevice newUsbTmc addr termchar = Except.error (Sum.inl e) := by
  unfold OpenResource
  rcases hp : parseVisaResource addr with ⟨v, oe⟩
  rw [hp] at h
  have h2 : oe = some e := h
  subst h2
  rfl

/-- Witness for C6 at the unparseable address `"::"` with a trivial
collaborator. -/
theorem c6_witness :
    OpenResource (fun _ _ _ => (Except.ok () : Except Unit Unit)) (fun _ _ => ()) "::" 0 =
      Except.error (Sum.inl VisaError.interfaceTypeNotUSB) :=
  c6_open_resource_propagates_parse_error _ _ "::" 0 VisaError.interfaceTypeNotUSB (by decide)

/-- Claim C7: a parse result delivered without an error always has
interface type `"USB"` and resource class `"INSTR"` set — no partially
valid identifier reaches a caller. -/
theorem c7_no_partial_identifier (s : String) (h : (parseVisaResource s).2 = none) :
    (parseVisaResource s).1.interfaceType = "USB" ∧
    (parseVisaResource s).1.resourceClass = "INSTR" := by
  obtain ⟨cap, hg, bv, mv, cv, iv, hb, hm, hc, hi, hres⟩ := parseVisaResource_ok_inv s h
  rw [hres]
  exact ⟨rfl, rfl⟩

/-- Witness for C7 at `usb1::0x1::0x2::SN::3::instr`. -/
theorem c7_witness :
    (parseVisaResource "usb1::0x1::0x2::SN::3::instr").2 = none ∧
    ((parseVisaResource "usb1::0x1::0x2::SN::3::instr").1.interfaceType = "USB" ∧
     (parseVisaResource "usb1::0x1::0x2::SN::3::instr").1.resourceClass = "INSTR") :=
  ⟨by decide, c7_no_partial_identifier "usb1::0x1::0x2::SN::3::instr" (by decide)⟩

/-- Claim C8 (counterexample): a board index written as `0x1234` cannot
occur — the board-index capture is digits-only, so
`USB0x1234::…::INSTR` does not match the grammar at all and parsing
fails with the interface-type error instead of yielding 4660. -/
theorem c8_counterexample :
    matchGrammar ("USB0x1234::0x1234::0x1234::S::0::INSTR".data) = none ∧
    (parseVisaResource "USB0x1234::0x1234::0x1234::S::0::INSTR").2 =
      some VisaError.interfaceTypeNotUSB := by decide

/-- Claim C8 (amended): for manufacturer ID and model code the tokens
`0x1234` and `4660` parse to the identical value 4660 (base
auto-detected from the `0x` prefix, decimal otherwise); the board index
uses the same auto-detecting numeric parser but its capture admits only
decimal digits, so only `4660` can appear there. -/
theorem c8_hex_decimal_equivalence :
    (parseVisaResource "USB4660::0x1234::4660::S::7::INSTR").2 = none ∧
    (parseVisaResource "USB4660::0x1234::4660::S::7::INSTR").1.boardIndex = 4660 ∧
    (parseVisaResource "USB4660::0x1234::4660::S::7::INSTR").1.manufacturerID = 4660 ∧
    (parseVisaResource "USB4660::0x1234::4660::S::7::INSTR").1.modelCode = 4660 ∧
    (parseVisaResource "USB4660::4660::0x1234::S::7::INSTR").2 = none ∧
    (parseVisaResource "USB4660::4660::0x1234::S::7::INSTR").1.manufacturerID = 4660 ∧
    (parseVisaResource "USB4660::4660::0x1234::S::7::INSTR").1.modelCode = 4660 := by decide

/-- Claim C9: on every successfully parsed input, manufacturer ID and
model code are actual parsed values in `[0, 0xFFFF]`; the `-1` sentinel
is unreachable because the grammar forces both captures non-empty and
an unparseable capture aborts the parse. -/
theorem c9_parsed_ids_bounded (s : String) (h : (parseVisaResource s).2 = none) :
    0 ≤ (parseVisaResource s).1.manufacturerID ∧
    (parseVisaResource s).1.manufacturerID ≤ 65535 ∧
    0 ≤ (parseVisaResource s).1.modelCode ∧
    (parseVisaResource s).1.modelCode ≤ 65535 := by
  obtain ⟨cap, hg, bv, mv, cv, iv, hb, hm, hc, hi, hres⟩ := parseVisaResource_ok_inv s h
  obtain ⟨hmne, hcne⟩ := matchGrammar_some_nonempty _ _ hg
  have h1 := parseNumField_bound16 hmne hm
  have h2 := parseNumField_bound16 hcne hc
  rw [hres]
  exact ⟨h1.1, h1.2, h2.1, h2.2⟩

/-- Witness for C9 at `USB2::0xffff::0::XYZ::7::INSTR` (boundary
manufacturer ID 0xFFFF, model code 0). -/
theorem c9_witness :
    (parseVisaResource "USB2::0xffff::0::XYZ::7::INSTR").2 = none ∧
    (0 ≤ (parseVisaResource "USB2::0xffff::0::XYZ::7::INSTR").1.manufacturerID ∧
     (parseVisaResource "USB2::0xffff::0::XYZ::7::INSTR").1.manufacturerID ≤ 65535 ∧
     0 ≤ (parseVisaResource "USB2::0xffff::0::XYZ::7::INSTR").1.modelCode ∧
     (parseVisaResource "USB2::0xffff::0::XYZ::7::INSTR").1.modelCode ≤ 65535) :=
  ⟨by decide, c9_parsed_ids_bounded "USB2::0xffff::0::XYZ::7::INSTR" (by decide)⟩

/-- Claim C10: base auto-detection makes an all-digit board-index token
with a leading zero octal: `USB010::…` parses with board index 8 (not
10), and `USB08::…` fails with the board-index error because 8 is not
an octal digit. -/
theorem c10_leading_zero_octal :
    (parseVisaResource "USB010::0x1234::0x5678::S::0::INSTR").2 = none ∧
    (parseVisaResource "USB010::0x1234::0x5678::S::0::INSTR").1.boardIndex = 8 ∧
    (parseVisaResource "USB08::0x1234::0x5678::S::0::INSTR").2 =
      some VisaError.boardIndexError := by decide

end Visa

